import Mathlib

/-!
Verification of the EnrollmentService repository.

This file gives a shallow embedding, in Lean 4, of the parts of the
EnrollmentService code base that the checked properties speak about:

* the worker-thread processing pipeline
  (`src/workers/enrollment.worker.ts`): `validateSpots`,
  `validateScheduleConflicts`, `validateNoDuplicateConfirmed`,
  `findTimeConflict`, `timeToMinutes`, `confirmEnrollment`,
  `rejectEnrollment`, `processEnrollmentRequest`;
* the validation service (`src/services/enrollment-validation.service.ts`,
  current variant): `validateSpots`, `validateNoDuplicateConfirmed`
  (namespace `ValidationSvc`);
* the intake service (`src/services/enrollment.service.ts`, active-period
  variant): `createEnrollmentRequest`, `getStudentEnrollments`
  (namespace `Intake`);
* the worker pool (`src/services/worker-pool.service.ts`): `processQueue`
  and its callers, modelled as a state machine (namespace `Pool`).

Modelling conventions:

* Database tables are Lean lists of records held in a `Db` structure;
  TypeORM `findOne` becomes `List.find?`, `find`/`In (...)` becomes
  `List.filter`, and `repository.update`/`manager.save` become `List.map`
  updates keyed on the primary key.
* A SQL transaction (`dataSource.transaction`) is a function returning
  `Except String Db`: a thrown error yields `.error` and the caller keeps
  the pre-transaction state (rollback), `.ok` carries the committed state.
* Postgres `time` strings `"HH:MM[:SS]"` are modelled to minute precision
  by `TimeOfDay` (hours, minutes); `timeToMinutes` mirrors
  `time.split(':')` followed by `hours * 60 + minutes`.
* `new Date()` timestamps become an explicit `now : Nat` parameter.
* JavaScript truthiness of the optional `periodId` parameter is modelled
  by `jsTruthy : Option Int → Bool` (undefined ↦ `none`, a number ↦
  `some v`, falsy exactly for `none` and `some 0`).
-/

/-- Status column of the `enrollment` table (`EnrollmentStatus` enum). -/
inductive EnrollmentStatus
  | PENDING
  | CONFIRMED
  | REJECTED
deriving DecidableEq, Repr

/-- `Term` entity (only the field used by the checked code: `year`). -/
structure Term where
  id : Nat
  year : Nat
deriving DecidableEq, Repr

/-- Status column of the `period` table (`'ACTIVE' | 'INACTIVE'`). -/
inductive PeriodStatus
  | ACTIVE
  | INACTIVE
deriving DecidableEq, Repr

/-- `Period` entity: id, display number, status, owning term. -/
structure Period where
  id : Nat
  number : Nat
  status : PeriodStatus
  term : Term
deriving DecidableEq, Repr

/-- `SubjectGroup` entity (a section): id, remaining seats (`spots`),
group label, owning plan subject. `spots` is an `Int`, as in the source a
plain number column. -/
structure SubjectGroup where
  id : Nat
  spots : Int
  group : String
  planSubjectId : Nat
deriving DecidableEq, Repr

/-- `Enrollment` entity. The `period` relation is stored inline, exactly
as the TypeORM entity holds its `ManyToOne` relation. -/
structure Enrollment where
  id : Nat
  studentId : Nat
  period : Period
  online : Bool
  status : EnrollmentStatus
  rejectionReason : Option String
  processedAt : Option Nat
  datetime : Nat
deriving DecidableEq, Repr

/-- `EnrollmentDetail` entity: one row per (enrollment, section) pair. -/
structure EnrollmentDetail where
  enrollmentId : Nat
  subjectGroupId : Nat
deriving DecidableEq, Repr

/-- A time of day, modelling the Postgres `time` string `"HH:MM[:SS]"` to
minute precision. -/
structure TimeOfDay where
  hours : Nat
  minutes : Nat
deriving DecidableEq, Repr

/-- One raw row of the schedule query run by
`validateScheduleConflicts` (a `group_schedule` row joined with
`schedule`, `subject_group` and `subject`). -/
structure ScheduleRow where
  day : String
  beginTime : TimeOfDay
  endTime : TimeOfDay
  groupId : Nat
  groupName : String
  subjectCode : String
deriving DecidableEq, Repr

/-- The `EnrollmentRequestEvent` published to Kafka and consumed by the
worker. -/
structure EnrollmentRequestEvent where
  enrollmentId : Nat
  studentId : Nat
  periodId : Nat
  subjectGroupIds : List Nat
  online : Bool
deriving DecidableEq, Repr

/-- `CreateEnrollmentRequestDto`: intake request payload. -/
structure CreateEnrollmentRequestDto where
  studentId : Nat
  subjectGroupIds : List Nat
  online : Bool
deriving DecidableEq, Repr

/-- The database state: one list per table touched by the checked code.
`scheduleRows` stands for the joined schedule view that the schedule
query reads (rows carry their owning section id in `groupId`). -/
structure Db where
  enrollments : List Enrollment
  subjectGroups : List SubjectGroup
  scheduleRows : List ScheduleRow
  periods : List Period
  details : List EnrollmentDetail
deriving DecidableEq, Repr

/-- The `{ valid: boolean; reason?: string }` result shape shared by all
validation functions. -/
structure ValidationResult where
  valid : Bool
  reason : Option String
deriving DecidableEq, Repr

/-- An `RpcException` payload `{ status, message }`. -/
structure RpcError where
  status : Nat
  message : String
deriving DecidableEq, Repr

/-- `timeToMinutes`: `time.split(':')` then `hours * 60 + minutes`
(`src/workers/enrollment.worker.ts`, also the identical private method of
the validation service). -/
def timeToMinutes (time : TimeOfDay) : Nat :=
  time.hours * 60 + time.minutes

/-- Render a `TimeOfDay` the way the source strings print (`HH:MM`),
used only inside human-readable conflict messages. -/
def timeOfDayStr (t : TimeOfDay) : String :=
  (if t.hours < 10 then "0" ++ toString t.hours else toString t.hours) ++ ":" ++
    (if t.minutes < 10 then "0" ++ toString t.minutes else toString t.minutes)

namespace Worker

/-- Inner loop of `findTimeConflict`: compare slot `a` against each later
slot `b` in order, returning the first overlap message
(`aStart < bEnd && bStart < aEnd`). -/
def findConflictWith (a : ScheduleRow) : List ScheduleRow → Option String
  | [] => none
  | b :: rest =>
    if timeToMinutes a.beginTime < timeToMinutes b.endTime
        ∧ timeToMinutes b.beginTime < timeToMinutes a.endTime then
      some (a.subjectCode ++ " - Grupo " ++ a.groupName ++ " (" ++
        timeOfDayStr a.beginTime ++ "-" ++ timeOfDayStr a.endTime ++ ") choca con " ++
        b.subjectCode ++ " - Grupo " ++ b.groupName ++ " (" ++
        timeOfDayStr b.beginTime ++ "-" ++ timeOfDayStr b.endTime ++ ")")
    else
      findConflictWith a rest

/-- `findTimeConflict` (`src/workers/enrollment.worker.ts`): nested loops
over all index pairs `i < j` of the day group, first overlapping pair
wins; no filtering by owning section. Returns the conflict message. -/
def findTimeConflict : List ScheduleRow → Option String
  | [] => none
  | a :: rest =>
    match findConflictWith a rest with
    | some m => some m
    | none => findTimeConflict rest

/-- `validateSpots` (worker variant): fetch the sections whose id is in
the request; fail with the generic message if the count differs from the
request length; fail listing group labels if any fetched section has
`spots <= 0`. -/
def validateSpots (db : Db) (subjectGroupIds : List Nat) : ValidationResult :=
  let groups := db.subjectGroups.filter (fun g => subjectGroupIds.contains g.id)
  if groups.length ≠ subjectGroupIds.length then
    ⟨false, some "Algunos grupos no existen"⟩
  else
    let groupsWithoutSpots := groups.filter (fun g => g.spots ≤ 0)
    if groupsWithoutSpots.length > 0 then
      ⟨false, some ("Sin cupos disponibles en: " ++
        String.intercalate ", "
          (groupsWithoutSpots.map (fun g => "Grupo " ++ g.group ++ " (ID: " ++ toString g.id ++ ")")))⟩
    else
      ⟨true, none⟩

/-- Day keys of the `byDay` JS `Map`, in first-occurrence order (JS `Map`
iterates keys in insertion order). -/
def firstOccurDays (rows : List ScheduleRow) : List String :=
  rows.foldl (fun acc r => if acc.contains r.day then acc else acc ++ [r.day]) []

/-- Walk the day groups in `byDay` order and return the first day with a
time conflict, together with its message. -/
def findDayConflict (rows : List ScheduleRow) : List String → Option (String × String)
  | [] => none
  | d :: rest =>
    match findTimeConflict (rows.filter (fun r => r.day == d)) with
    | some m => some (d, m)
    | none => findDayConflict rows rest

/-- `validateScheduleConflicts` (worker variant): select the schedule
rows of the requested sections, group them by day, and fail with the
first day's conflict message if any day group has an overlap. -/
def validateScheduleConflicts (db : Db) (subjectGroupIds : List Nat) : ValidationResult :=
  let schedules := db.scheduleRows.filter (fun r => subjectGroupIds.contains r.groupId)
  match findDayConflict schedules (firstOccurDays schedules) with
  | some (d, m) => ⟨false, some ("Conflicto de horario el " ++ d ++ ": " ++ m)⟩
  | none => ⟨true, none⟩

/-- `validateNoDuplicateConfirmed` (worker variant): `findOne` on
`(studentId, period.id, status = CONFIRMED)`; failure message reports the
found record's id and does not depend on its status. -/
def validateNoDuplicateConfirmed (db : Db) (studentId periodId : Nat) : ValidationResult :=
  match db.enrollments.find?
      (fun e => e.studentId == studentId && e.period.id == periodId &&
        e.status == EnrollmentStatus.CONFIRMED) with
  | some existing =>
    ⟨false, some ("Ya existe inscripción confirmada (ID: " ++ toString existing.id ++ ")")⟩
  | none => ⟨true, none⟩

/-- `manager.save(subjectGroup)` after `subjectGroup.spots -= 1`: update
the row with the given primary key. -/
def decrementSpots (groups : List SubjectGroup) (gid : Nat) : List SubjectGroup :=
  groups.map (fun g => if g.id == gid then { g with spots := g.spots - 1 } else g)

/-- Body of the `for (const subjectGroupId of subjectGroupIds)` loop of
`confirmEnrollment`: lock the row (`pessimistic_write`), re-read `spots`,
throw if the row is missing or `spots <= 0`, else decrement. Returns the
ids in lock-acquisition order paired with the transaction outcome. -/
def lockDecrementLoop : List Nat → List SubjectGroup → List Nat × Except String (List SubjectGroup)
  | [], groups => ([], .ok groups)
  | gid :: rest, groups =>
    match groups.find? (fun g => g.id == gid) with
    | none => ([gid], .error ("No hay cupos disponibles para grupo " ++ toString gid))
    | some g =>
      if g.spots ≤ 0 then
        ([gid], .error ("No hay cupos disponibles para grupo " ++ toString gid))
      else
        let res := lockDecrementLoop rest (decrementSpots groups gid)
        (gid :: res.1, res.2)

/-- `manager.update(Enrollment, id, {status: CONFIRMED, processedAt: now,
rejectionReason: null})`. -/
def markConfirmed (db : Db) (enrollmentId now : Nat) : Db :=
  { db with enrollments := db.enrollments.map (fun e =>
      if e.id == enrollmentId then
        { e with status := .CONFIRMED, processedAt := some now, rejectionReason := none }
      else e) }

/-- `confirmEnrollment` (`src/workers/enrollment.worker.ts`): one
database transaction that walks `subjectGroupIds` in the order given,
locking and decrementing each section, then marks the enrollment
CONFIRMED. The first component is the sequence of section ids in the
order their row locks were requested; `.error` means the transaction
threw and rolled back. -/
def confirmEnrollment (db : Db) (enrollmentId : Nat) (subjectGroupIds : List Nat) (now : Nat) :
    List Nat × Except String Db :=
  match lockDecrementLoop subjectGroupIds db.subjectGroups with
  | (tr, .error m) => (tr, .error m)
  | (tr, .ok groups) => (tr, .ok (markConfirmed { db with subjectGroups := groups } enrollmentId now))

/-- `rejectEnrollment`: single-row update to REJECTED with the supplied
reason and `processedAt = now`. -/
def rejectEnrollment (db : Db) (enrollmentId : Nat) (reason : String) (now : Nat) : Db :=
  { db with enrollments := db.enrollments.map (fun e =>
      if e.id == enrollmentId then
        { e with status := .REJECTED, rejectionReason := some reason, processedAt := some now }
      else e) }

/-- The `try { await confirmEnrollment(...) } catch { await
rejectEnrollment(id, 'Error interno: ' + error.message) }` composition of
`processEnrollmentRequest`: on a transaction failure the database rolls
back to `db` and the enrollment is rejected with the wrapped message. -/
def runConfirmStep (db : Db) (enrollmentId : Nat) (subjectGroupIds : List Nat) (now : Nat) : Db :=
  match (confirmEnrollment db enrollmentId subjectGroupIds now).2 with
  | .ok db' => db'
  | .error m => rejectEnrollment db enrollmentId ("Error interno: " ++ m) now

/-- `processEnrollmentRequest` (`src/workers/enrollment.worker.ts`):
look up the enrollment (absent ⇒ no-op), skip unless PENDING, then run
the three validations in order, rejecting with the first failure's
reason, and finally run the confirmation transaction. -/
def processEnrollmentRequest (db : Db) (event : EnrollmentRequestEvent) (now : Nat) : Db :=
  match db.enrollments.find? (fun e => e.id == event.enrollmentId) with
  | none => db
  | some enrollment =>
    if enrollment.status ≠ EnrollmentStatus.PENDING then db
    else
      let spotsValidation := validateSpots db event.subjectGroupIds
      if spotsValidation.valid = false then
        rejectEnrollment db event.enrollmentId (spotsValidation.reason.getD "") now
      else
        let scheduleValidation := validateScheduleConflicts db event.subjectGroupIds
        if scheduleValidation.valid = false then
          rejectEnrollment db event.enrollmentId (scheduleValidation.reason.getD "") now
        else
          let duplicateValidation := validateNoDuplicateConfirmed db event.studentId event.periodId
          if duplicateValidation.valid = false then
            rejectEnrollment db event.enrollmentId (duplicateValidation.reason.getD "") now
          else
            runConfirmStep db event.enrollmentId event.subjectGroupIds now

end Worker

/-- The ASCII single-quote character (code 39) used by the duplicate
failure message to quote the period label. -/
def sglQuote : String := String.singleton (Char.ofNat 39)

namespace ValidationSvc

/-- `validateSpots` of `EnrollmentValidationService` (current variant):
like the worker's, but on a missing id it lists the missing ids
(`foundIds`/`missingIds`) in the failure message. -/
def validateSpots (db : Db) (subjectGroupIds : List Nat) : ValidationResult :=
  let groups := db.subjectGroups.filter (fun g => subjectGroupIds.contains g.id)
  if groups.length ≠ subjectGroupIds.length then
    let foundIds := groups.map (fun g => g.id)
    let missingIds := subjectGroupIds.filter (fun i => !foundIds.contains i)
    ⟨false, some ("Grupos no encontrados: " ++
      String.intercalate ", " (missingIds.map toString))⟩
  else
    let groupsWithoutSpots := groups.filter (fun g => g.spots ≤ 0)
    if groupsWithoutSpots.length > 0 then
      ⟨false, some ("Sin cupos disponibles en: " ++
        String.intercalate ", "
          (groupsWithoutSpots.map (fun g => "Grupo " ++ g.group ++ " (ID: " ++ toString g.id ++ ")")))⟩
    else
      ⟨true, none⟩

/-- The predicate of the service's duplicate `findOne`: same student,
same period, status `In [CONFIRMED, PENDING]`. -/
def dupPred (studentId periodId : Nat) (e : Enrollment) : Bool :=
  e.studentId == studentId && e.period.id == periodId &&
    (e.status == EnrollmentStatus.CONFIRMED || e.status == EnrollmentStatus.PENDING)

/-- The duplicate failure message of the service variant: distinguishes
the found status (`pendiente` / `confirmada`) and quotes the colliding
period's display label `number-year`. -/
def dupMessage (e : Enrollment) : String :=
  "Ya existe una inscripción " ++
    (if e.status == EnrollmentStatus.PENDING then "pendiente" else "confirmada") ++
    " para el período: " ++ sglQuote ++ toString e.period.number ++ "-" ++
      toString e.period.term.year ++ sglQuote

/-- `validateNoDuplicateConfirmed` of `EnrollmentValidationService`
(current variant): blocks on an existing PENDING or CONFIRMED record for
the same (student, period), with a status-distinguishing message. -/
def validateNoDuplicateConfirmed (db : Db) (studentId periodId : Nat) : ValidationResult :=
  match db.enrollments.find? (dupPred studentId periodId) with
  | some existing => ⟨false, some (dupMessage existing)⟩
  | none => ⟨true, none⟩

end ValidationSvc

/-- `String.includes` of JavaScript: `needle` occurs inside `hay`. -/
def strIncludes (hay needle : String) : Bool :=
  decide (needle.data <:+: hay.data)

namespace Intake

/-- The next generated primary key for an insert into `enrollment`. -/
def nextId (db : Db) : Nat :=
  db.enrollments.foldl (fun m e => max m e.id) 0 + 1

/-- The `catch` block of `createEnrollmentRequest`: a validation `Error`
whose message mentions a duplicate, missing seats or a schedule conflict
becomes a 409 `RpcException`; anything else becomes a wrapped 500. (The
`NotFoundException` branch is modelled directly at its throw site.) -/
def classifyIntakeError (msg : String) : RpcError :=
  if strIncludes msg "Ya existe una inscripción" || strIncludes msg "Sin cupos" ||
      strIncludes msg "Conflicto" then
    ⟨409, msg⟩
  else
    ⟨500, "Failed to create enrollment request: " ++ msg⟩

/-- `createEnrollmentRequest` of `EnrollmentService` (active-period
variant): resolve the active period (404 if none), run the service
duplicate check (its failure is thrown and classified by the catch
block), then in one transaction insert the PENDING record and one detail
row per section id. Returns the resulting database plus either the new
record id or the `RpcException` payload; on any error the input database
is returned unchanged (the throw happens before or instead of the
transaction). -/
def createEnrollmentRequest (db : Db) (dto : CreateEnrollmentRequestDto) (now : Nat) :
    Db × Except RpcError Nat :=
  match db.periods.find? (fun p => p.status == PeriodStatus.ACTIVE) with
  | none => (db, .error ⟨404, "No active period found"⟩)
  | some period =>
    let duplicateValidation := ValidationSvc.validateNoDuplicateConfirmed db dto.studentId period.id
    if duplicateValidation.valid = false then
      (db, .error (classifyIntakeError (duplicateValidation.reason.getD "")))
    else
      let newId := nextId db
      let newEnrollment : Enrollment :=
        { id := newId, studentId := dto.studentId, period := period, online := dto.online,
          status := .PENDING, rejectionReason := none, processedAt := none, datetime := now }
      let newDetails := dto.subjectGroupIds.map (fun gid =>
        { enrollmentId := newId, subjectGroupId := gid : EnrollmentDetail })
      ({ db with enrollments := db.enrollments ++ [newEnrollment],
                 details := db.details ++ newDetails }, .ok newId)

/-- JavaScript truthiness of the optional numeric `periodId` parameter:
`undefined` (`none`) and `0` are falsy, every other number is truthy. -/
def jsTruthy : Option Int → Bool
  | none => false
  | some v => v != 0

/-- `ORDER BY datetime DESC` of the enrollment query. -/
def sortByDatetimeDesc (l : List Enrollment) : List Enrollment :=
  l.mergeSort (fun a b => b.datetime ≤ a.datetime)

/-- `getStudentEnrollments`: filter by student and — only when the given
`periodId` is truthy — by period, ordered by datetime descending. -/
def getStudentEnrollments (db : Db) (studentId : Nat) (periodId : Option Int) : List Enrollment :=
  sortByDatetimeDesc (db.enrollments.filter (fun e =>
    e.studentId == studentId &&
      (if jsTruthy periodId then (e.period.id : Int) == periodId.getD 0 else true)))

end Intake

namespace Pool

/-- One slot of the worker pool (`WorkerInfo`): slot id, busy flag, and
the task currently held (`currentTask`), identified by its enrollment
id. -/
structure WorkerSlot where
  id : Nat
  busy : Bool
  currentTask : Option Nat
deriving DecidableEq, Repr

/-- The dispatcher state: worker slots in creation order, the FIFO
`taskQueue`, plus two history lists used to state ordering properties:
`dispatched` records tasks in the order they were handed to workers, and
`arrived` records tasks in the order they were enqueued. -/
structure PoolState where
  workers : List WorkerSlot
  taskQueue : List Nat
  dispatched : List Nat
  arrived : List Nat
deriving DecidableEq, Repr

/-- `workers.find(w => !w.busy)` followed by the in-place mutation of
`assignTaskToWorker`: mark the first non-busy slot busy and hand it the
task. -/
def markFirstAvailable (t : Nat) : List WorkerSlot → List WorkerSlot
  | [] => []
  | w :: rest =>
    if w.busy then w :: markFirstAvailable t rest
    else { w with busy := true, currentTask := some t } :: rest

/-- The body of `processQueue`'s `while` loop, recursing on the task
queue and threading the mutable loop state (worker slots and dispatch
history): while the queue is non-empty and some worker is idle, pop the
head of the queue and assign it to the first idle worker in slot
order. -/
def processQueueGo (ws : List WorkerSlot) (dispatched arrived : List Nat) :
    List Nat → PoolState
  | [] => ⟨ws, [], dispatched, arrived⟩
  | t :: rest =>
    if ws.any (fun w => !w.busy) then
      processQueueGo (markFirstAvailable t ws) (dispatched ++ [t]) arrived rest
    else ⟨ws, t :: rest, dispatched, arrived⟩

/-- `processQueue`: run the dispatch loop on the current state. -/
def processQueue (s : PoolState) : PoolState :=
  processQueueGo s.workers s.dispatched s.arrived s.taskQueue

/-- `processEnrollmentRequest` of `WorkerPoolService`: push the task at
the tail of the queue, then run the dispatcher. -/
def enqueueTask (s : PoolState) (t : Nat) : PoolState :=
  processQueue { s with taskQueue := s.taskQueue ++ [t], arrived := s.arrived ++ [t] }

/-- `onWorkerTaskCompleted`: clear the slot's task, mark it idle, then
run the dispatcher. -/
def completeTask (s : PoolState) (wid : Nat) : PoolState :=
  processQueue { s with workers := s.workers.map (fun w =>
    if w.id == wid then { w with busy := false, currentTask := none } else w) }

/-- The two dispatcher-relevant events: a task arriving from Kafka, and
a worker reporting completion. -/
inductive PoolEvent
  | enqueue (t : Nat)
  | complete (wid : Nat)
deriving DecidableEq, Repr

/-- One dispatcher step. -/
def poolStep (s : PoolState) : PoolEvent → PoolState
  | .enqueue t => enqueueTask s t
  | .complete wid => completeTask s wid

/-- Run the dispatcher over a sequence of events. -/
def poolRun (s : PoolState) (evs : List PoolEvent) : PoolState :=
  evs.foldl poolStep s

/-- The freshly initialised pool: `n` idle workers with slot ids
`1..n`, empty queue. -/
def initPool (n : Nat) : PoolState :=
  ⟨(List.range n).map (fun i => ⟨i + 1, false, none⟩), [], [], []⟩

end Pool

/-!
## Shared lemmas about the worker's confirmation loop
-/

/-- The id trace of `lockDecrementLoop` is an initial segment of the
request list, and on success it is the whole request list. -/
theorem lockDecrementLoop_trace :
    ∀ (ids : List Nat) (groups : List SubjectGroup),
      (Worker.lockDecrementLoop ids groups).1 <+: ids ∧
      (∀ gs, (Worker.lockDecrementLoop ids groups).2 = Except.ok gs →
        (Worker.lockDecrementLoop ids groups).1 = ids)
  | [], groups => by
    refine ⟨⟨[], rfl⟩, fun gs _ => rfl⟩
  | gid :: rest, groups => by
    have IH := lockDecrementLoop_trace rest (Worker.decrementSpots groups gid)
    simp only [Worker.lockDecrementLoop]
    cases hf : groups.find? (fun g => g.id == gid) with
    | none =>
      refine ⟨⟨rest, rfl⟩, fun gs hgs => by simp at hgs⟩
    | some g =>
      by_cases hs : g.spots ≤ 0
      · simp only [if_pos hs]
        refine ⟨⟨rest, rfl⟩, fun gs hgs => by simp at hgs⟩
      · simp only [if_neg hs]
        rcases IH.1 with ⟨t, ht⟩
        refine ⟨⟨t, by simp [ht]⟩, fun gs hgs => ?_⟩
        have := IH.2 gs hgs
        simp [this]

/-- The lock trace of the whole `confirmEnrollment` transaction equals
the trace of its decrement loop. -/
theorem confirmEnrollment_trace_eq (db : Db) (eid : Nat) (ids : List Nat) (now : Nat) :
    (Worker.confirmEnrollment db eid ids now).1 =
      (Worker.lockDecrementLoop ids db.subjectGroups).1 := by
  unfold Worker.confirmEnrollment
  cases h : Worker.lockDecrementLoop ids db.subjectGroups with
  | mk tr r => cases r <;> simp

/-!
## C4 — lock acquisition order
-/

/-- C4 counterexample: with two sections (ids 1 and 2, both with free
seats) and the request list `[2, 1]`, the confirmation transaction
requests the row locks in the order `[2, 1]` — the order of the request —
which is not ascending id order. The claimed ascending order `[1, 2]` is
not what the code does. -/
theorem confirmEnrollment_lock_order_not_ascending :
    (Worker.confirmEnrollment
        (Db.mk [] [⟨1, 3, "A", 1⟩, ⟨2, 3, "B", 1⟩] [] [] []) 10 [2, 1] 0).1 = [2, 1] ∧
    ¬ List.Sorted (· ≤ ·)
      (Worker.confirmEnrollment
        (Db.mk [] [⟨1, 3, "A", 1⟩, ⟨2, 3, "B", 1⟩] [] [] []) 10 [2, 1] 0).1 ∧
    (Worker.confirmEnrollment
        (Db.mk [] [⟨1, 3, "A", 1⟩, ⟨2, 3, "B", 1⟩] [] [] []) 10 [2, 1] 0).1 ≠ [1, 2] := by
  refine ⟨by decide, ?_, by decide⟩
  have h : (Worker.confirmEnrollment
      (Db.mk [] [⟨1, 3, "A", 1⟩, ⟨2, 3, "B", 1⟩] [] [] []) 10 [2, 1] 0).1 = [2, 1] := by decide
  rw [h]
  simp [List.Sorted]

/-- C4 as amended: the exclusive row locks are acquired in exactly the
order the section ids appear in the request — the lock trace is an
initial segment of the request list (cut short at the first failure),
and on a committed transaction it is the whole request list in request
order. No ascending re-ordering takes place. -/
theorem confirmEnrollment_lock_order_is_request_order
    (db : Db) (eid : Nat) (ids : List Nat) (now : Nat) :
    (Worker.confirmEnrollment db eid ids now).1 <+: ids ∧
    (∀ db', (Worker.confirmEnrollment db eid ids now).2 = Except.ok db' →
      (Worker.confirmEnrollment db eid ids now).1 = ids) := by
  have htr := confirmEnrollment_trace_eq db eid ids now
  have hloop := lockDecrementLoop_trace ids db.subjectGroups
  constructor
  · rw [htr]; exact hloop.1
  · intro db' hok
    rw [htr]
    unfold Worker.confirmEnrollment at hok
    cases h : Worker.lockDecrementLoop ids db.subjectGroups with
    | mk tr r =>
      cases r with
      | error m => rw [h] at hok; simp at hok
      | ok gs =>
        have h2 := hloop.2 gs (by rw [h])
        rw [h] at h2
        exact h2

/-- Witness for C4 (amended): on the concrete run of the counterexample
database the transaction commits and the lock trace is the request order
`[2, 1]`. -/
theorem confirmEnrollment_lock_order_witness :
    (Worker.confirmEnrollment
        (Db.mk [] [⟨1, 3, "A", 1⟩, ⟨2, 3, "B", 1⟩] [] [] []) 10 [2, 1] 0).1 <+: [2, 1] ∧
    (Worker.confirmEnrollment
        (Db.mk [] [⟨1, 3, "A", 1⟩, ⟨2, 3, "B", 1⟩] [] [] []) 10 [2, 1] 0).1 = [2, 1] := by
  have h := confirmEnrollment_lock_order_is_request_order
    (Db.mk [] [⟨1, 3, "A", 1⟩, ⟨2, 3, "B", 1⟩] [] [] []) 10 [2, 1] 0
  exact ⟨h.1, h.2 (Db.mk [] [⟨1, 2, "A", 1⟩, ⟨2, 2, "B", 1⟩] [] [] []) rfl⟩

/-!
## C5 / C6 — the conflict detector
-/

/-- `findConflictWith a rest` finds nothing exactly when `a` overlaps no
element of `rest` under the half-open test. -/
theorem findConflictWith_eq_none_iff (a : ScheduleRow) :
    ∀ rest : List ScheduleRow,
      Worker.findConflictWith a rest = none ↔
        ∀ b ∈ rest, ¬(timeToMinutes a.beginTime < timeToMinutes b.endTime ∧
          timeToMinutes b.beginTime < timeToMinutes a.endTime)
  | [] => by simp [Worker.findConflictWith]
  | b :: rest => by
    by_cases h : timeToMinutes a.beginTime < timeToMinutes b.endTime ∧
        timeToMinutes b.beginTime < timeToMinutes a.endTime
    · simp [Worker.findConflictWith, if_pos h, h]
    · simp only [Worker.findConflictWith, if_neg h]
      rw [findConflictWith_eq_none_iff a rest]
      constructor
      · intro hall x hx
        rcases List.mem_cons.1 hx with rfl | hx'
        · exact h
        · exact hall x hx'
      · intro hall x hx
        exact hall x (List.mem_cons_of_mem _ hx)

/-- `findTimeConflict` reports nothing exactly when no ordered pair of
slots of the list overlaps under the half-open test. -/
theorem findTimeConflict_eq_none_iff :
    ∀ ts : List ScheduleRow,
      Worker.findTimeConflict ts = none ↔
        ∀ x y : ScheduleRow, List.Sublist [x, y] ts →
          ¬(timeToMinutes x.beginTime < timeToMinutes y.endTime ∧
            timeToMinutes y.beginTime < timeToMinutes x.endTime)
  | [] => by
    simp only [Worker.findTimeConflict]
    constructor
    · intro _ x y hsub
      exact absurd (hsub.length_le) (by simp)
    · intro _
      trivial
  | a :: rest => by
    simp only [Worker.findTimeConflict]
    cases hfc : Worker.findConflictWith a rest with
    | some m =>
      refine iff_of_false (by simp) ?_
      intro hall
      have hnone := (findConflictWith_eq_none_iff a rest).2
        (fun b hb => hall a b ((List.cons_sublist_cons).2 (List.singleton_sublist.2 hb)))
      rw [hnone] at hfc
      exact Option.noConfusion hfc
    | none =>
      rw [findTimeConflict_eq_none_iff rest]
      constructor
      · intro hrec x y hsub
        cases hsub with
        | cons _ h => exact hrec x y h
        | cons₂ _ h =>
          exact (findConflictWith_eq_none_iff a rest).1 hfc y (List.singleton_sublist.1 h)
      · intro hall x y hsub
        exact hall x y (hsub.trans (List.sublist_cons_self a rest))

/-- C5: for a pair of meeting slots in the same weekday group, the
conflict detector reports an overlap iff `start1 < end2` and
`start2 < end1` (half-open intervals); consequently back-to-back slots
with `end1 = start2` never conflict, and a whole day group passes with
no conflict iff no ordered pair of its slots satisfies that test. -/
theorem findTimeConflict_halfOpen_characterization (a b : ScheduleRow) :
    ((Worker.findTimeConflict [a, b]).isSome = true ↔
      (timeToMinutes a.beginTime < timeToMinutes b.endTime ∧
        timeToMinutes b.beginTime < timeToMinutes a.endTime)) ∧
    (timeToMinutes a.endTime = timeToMinutes b.beginTime →
      Worker.findTimeConflict [a, b] = none) ∧
    (∀ ts : List ScheduleRow, Worker.findTimeConflict ts = none ↔
      ∀ x y : ScheduleRow, List.Sublist [x, y] ts →
        ¬(timeToMinutes x.beginTime < timeToMinutes y.endTime ∧
          timeToMinutes y.beginTime < timeToMinutes x.endTime)) := by
  have hpair : (Worker.findTimeConflict [a, b]).isSome = true ↔
      (timeToMinutes a.beginTime < timeToMinutes b.endTime ∧
        timeToMinutes b.beginTime < timeToMinutes a.endTime) := by
    by_cases h : timeToMinutes a.beginTime < timeToMinutes b.endTime ∧
        timeToMinutes b.beginTime < timeToMinutes a.endTime
    · simp [Worker.findTimeConflict, Worker.findConflictWith, if_pos h, h]
    · simp [Worker.findTimeConflict, Worker.findConflictWith, if_neg h, h]
  refine ⟨hpair, ?_, findTimeConflict_eq_none_iff⟩
  intro hb2b
  cases hres : Worker.findTimeConflict [a, b] with
  | none => rfl
  | some m =>
    have : (Worker.findTimeConflict [a, b]).isSome = true := by rw [hres]; rfl
    have hov := hpair.1 this
    omega

/-- Witness for C5: the pair Monday 10:00–11:00 / 10:30–11:30 is
reported as an overlap, and the back-to-back pair 10:00–11:00 /
11:00–12:00 is not. -/
theorem findTimeConflict_halfOpen_witness :
    (Worker.findTimeConflict
        [⟨"LUNES", ⟨10, 0⟩, ⟨11, 0⟩, 1, "A", "MAT101"⟩,
         ⟨"LUNES", ⟨10, 30⟩, ⟨11, 30⟩, 2, "B", "FIS101"⟩]).isSome = true ∧
    Worker.findTimeConflict
        [⟨"LUNES", ⟨10, 0⟩, ⟨11, 0⟩, 1, "A", "MAT101"⟩,
         ⟨"LUNES", ⟨11, 0⟩, ⟨12, 0⟩, 2, "B", "FIS101"⟩] = none := by
  constructor
  · exact (findTimeConflict_halfOpen_characterization
      ⟨"LUNES", ⟨10, 0⟩, ⟨11, 0⟩, 1, "A", "MAT101"⟩
      ⟨"LUNES", ⟨10, 30⟩, ⟨11, 30⟩, 2, "B", "FIS101"⟩).1.2 (by decide)
  · exact (findTimeConflict_halfOpen_characterization
      ⟨"LUNES", ⟨10, 0⟩, ⟨11, 0⟩, 1, "A", "MAT101"⟩
      ⟨"LUNES", ⟨11, 0⟩, ⟨12, 0⟩, 2, "B", "FIS101"⟩).2.1 (by decide)

/-- C6 counterexample: a single requested section (id 7) with two
overlapping Monday slots is reported as a schedule conflict by the
worker's schedule check — the detector does compare two slots of the
same section, contradicting the claim that only slots of two different
sections can form a reported pair. -/
theorem scheduleConflict_same_section_reported :
    (Worker.validateScheduleConflicts
        (Db.mk [] []
          [⟨"LUNES", ⟨10, 0⟩, ⟨12, 0⟩, 7, "A", "MAT101"⟩,
           ⟨"LUNES", ⟨11, 0⟩, ⟨13, 0⟩, 7, "A", "MAT101"⟩] [] [])
        [7]).valid = false ∧
    ∀ r ∈ (Db.mk ([] : List Enrollment) []
          [⟨"LUNES", ⟨10, 0⟩, ⟨12, 0⟩, 7, "A", "MAT101"⟩,
           ⟨"LUNES", ⟨11, 0⟩, ⟨13, 0⟩, 7, "A", "MAT101"⟩] [] []).scheduleRows,
      r.groupId = 7 := by
  constructor
  · decide
  · intro r hr
    simp only [List.mem_cons, List.not_mem_nil, or_false] at hr
    rcases hr with rfl | rfl <;> rfl

/-- C6 as amended: the conflict detector compares every ordered pair of
slots in a day group with no filtering by owning section, so two
overlapping slots of the same section are reported as a conflict. -/
theorem findTimeConflict_compares_same_section (a b : ScheduleRow)
    (hg : a.groupId = b.groupId)
    (h1 : timeToMinutes a.beginTime < timeToMinutes b.endTime)
    (h2 : timeToMinutes b.beginTime < timeToMinutes a.endTime) :
    (Worker.findTimeConflict [a, b]).isSome = true := by
  simp [Worker.findTimeConflict, Worker.findConflictWith, if_pos (And.intro h1 h2)]

/-- Witness for C6 (amended) at the two concrete same-section slots of
the counterexample database. -/
theorem findTimeConflict_compares_same_section_witness :
    (Worker.findTimeConflict
        [⟨"LUNES", ⟨10, 0⟩, ⟨12, 0⟩, 7, "A", "MAT101"⟩,
         ⟨"LUNES", ⟨11, 0⟩, ⟨13, 0⟩, 7, "A", "MAT101"⟩]).isSome = true :=
  findTimeConflict_compares_same_section
    ⟨"LUNES", ⟨10, 0⟩, ⟨12, 0⟩, 7, "A", "MAT101"⟩
    ⟨"LUNES", ⟨11, 0⟩, ⟨13, 0⟩, 7, "A", "MAT101"⟩
    rfl (by decide) (by decide)

/-!
## C3 — the duplicate check of the asynchronous pipeline
-/

/-- C3 counterexample: the worker-thread pipeline's duplicate check does
not fail on a PENDING record. Here the database holds, besides the
record being processed (id 9), another PENDING record (id 5) for the
same (student 1, period 1) — the claim says the check must fail, yet the
worker's `validateNoDuplicateConfirmed` reports valid. -/
theorem worker_duplicate_check_ignores_pending :
    (Worker.validateNoDuplicateConfirmed
        (Db.mk [⟨9, 1, ⟨1, 1, .ACTIVE, ⟨1, 2025⟩⟩, true, .PENDING, none, none, 1⟩,
                ⟨5, 1, ⟨1, 1, .ACTIVE, ⟨1, 2025⟩⟩, true, .PENDING, none, none, 0⟩]
          [] [] [] []) 1 1).valid = true ∧
    ∃ e ∈ (Db.mk [⟨9, 1, ⟨1, 1, .ACTIVE, ⟨1, 2025⟩⟩, true, .PENDING, none, none, 1⟩,
                  ⟨5, 1, ⟨1, 1, .ACTIVE, ⟨1, 2025⟩⟩, true, .PENDING, none, none, 0⟩]
          [] [] [] []).enrollments,
      e.id ≠ 9 ∧ e.studentId = 1 ∧ e.period.id = 1 ∧ e.status = EnrollmentStatus.PENDING := by
  decide

/-- C3 as amended: the worker-thread pipeline's duplicate check fails
exactly when some record for the same (student, period) is CONFIRMED
(PENDING records do not block it, and its message reports the found
record's id without distinguishing statuses), whereas the validation
service variant used at intake fails exactly when some record for the
same (student, period) is CONFIRMED or PENDING, with a message that
distinguishes which status was found and quotes the period label. -/
theorem duplicate_check_characterization (db : Db) (s p : Nat) :
    ((Worker.validateNoDuplicateConfirmed db s p).valid = false ↔
      ∃ e ∈ db.enrollments, e.studentId = s ∧ e.period.id = p ∧
        e.status = EnrollmentStatus.CONFIRMED) ∧
    ((ValidationSvc.validateNoDuplicateConfirmed db s p).valid = false ↔
      ∃ e ∈ db.enrollments, e.studentId = s ∧ e.period.id = p ∧
        (e.status = EnrollmentStatus.CONFIRMED ∨ e.status = EnrollmentStatus.PENDING)) ∧
    (∀ e, db.enrollments.find? (ValidationSvc.dupPred s p) = some e →
      (ValidationSvc.validateNoDuplicateConfirmed db s p).reason =
        some (ValidationSvc.dupMessage e)) := by
  refine ⟨?_, ?_, ?_⟩
  · unfold Worker.validateNoDuplicateConfirmed
    cases h : db.enrollments.find?
        (fun e => e.studentId == s && e.period.id == p &&
          e.status == EnrollmentStatus.CONFIRMED) with
    | none =>
      refine iff_of_false (by simp) ?_
      rintro ⟨e, hmem, h1, h2, h3⟩
      have := List.find?_eq_none.1 h e hmem
      simp [h1, h2, h3] at this
    | some e =>
      refine iff_of_true rfl ?_
      have hmem := List.mem_of_find?_eq_some h
      have hpred := List.find?_some h
      simp only [Bool.and_eq_true, beq_iff_eq] at hpred
      exact ⟨e, hmem, hpred.1.1, hpred.1.2, hpred.2⟩
  · unfold ValidationSvc.validateNoDuplicateConfirmed
    cases h : db.enrollments.find? (ValidationSvc.dupPred s p) with
    | none =>
      refine iff_of_false (by simp) ?_
      rintro ⟨e, hmem, h1, h2, h3⟩
      have := List.find?_eq_none.1 h e hmem
      unfold ValidationSvc.dupPred at this
      rcases h3 with h3 | h3 <;> simp [h1, h2, h3] at this
    | some e =>
      refine iff_of_true rfl ?_
      have hmem := List.mem_of_find?_eq_some h
      have hpred := List.find?_some h
      unfold ValidationSvc.dupPred at hpred
      simp only [Bool.and_eq_true, Bool.or_eq_true, beq_iff_eq] at hpred
      exact ⟨e, hmem, hpred.1.1, hpred.1.2, hpred.2⟩
  · intro e h
    unfold ValidationSvc.validateNoDuplicateConfirmed
    rw [h]

/-- Witness for C3 (amended) on concrete databases: one CONFIRMED
record makes the worker check fail, and a PENDING record makes the
service check fail with the `pendiente` message quoting the period
label. -/
theorem duplicate_check_characterization_witness :
    ((Worker.validateNoDuplicateConfirmed
        (Db.mk [⟨5, 1, ⟨1, 1, .ACTIVE, ⟨1, 2025⟩⟩, true, .CONFIRMED, none, some 2, 0⟩]
          [] [] [] []) 1 1).valid = false) ∧
    ((ValidationSvc.validateNoDuplicateConfirmed
        (Db.mk [⟨5, 1, ⟨1, 1, .ACTIVE, ⟨1, 2025⟩⟩, true, .PENDING, none, none, 0⟩]
          [] [] [] []) 1 1).valid = false) ∧
    ((ValidationSvc.validateNoDuplicateConfirmed
        (Db.mk [⟨5, 1, ⟨1, 1, .ACTIVE, ⟨1, 2025⟩⟩, true, .PENDING, none, none, 0⟩]
          [] [] [] []) 1 1).reason =
      some (ValidationSvc.dupMessage
        ⟨5, 1, ⟨1, 1, .ACTIVE, ⟨1, 2025⟩⟩, true, .PENDING, none, none, 0⟩)) := by
  have h1 := (duplicate_check_characterization
      (Db.mk [⟨5, 1, ⟨1, 1, .ACTIVE, ⟨1, 2025⟩⟩, true, .CONFIRMED, none, some 2, 0⟩]
        [] [] [] []) 1 1).1
  have h2 := duplicate_check_characterization
      (Db.mk [⟨5, 1, ⟨1, 1, .ACTIVE, ⟨1, 2025⟩⟩, true, .PENDING, none, none, 0⟩]
        [] [] [] []) 1 1
  refine ⟨h1.2 ⟨⟨5, 1, ⟨1, 1, .ACTIVE, ⟨1, 2025⟩⟩, true, .CONFIRMED, none, some 2, 0⟩,
    by decide, rfl, rfl, rfl⟩, ?_, ?_⟩
  · exact h2.2.1.2 ⟨⟨5, 1, ⟨1, 1, .ACTIVE, ⟨1, 2025⟩⟩, true, .PENDING, none, none, 0⟩,
      by decide, rfl, rfl, Or.inr rfl⟩
  · exact h2.2.2 _ rfl

/-!
## C1 — recheck under lock, rollback, rejection with the failure message
-/

/-- If some requested section id has no row with positive seats (either
no row at all or only exhausted rows), the decrement loop of the
confirmation transaction throws: the re-read under the row lock is what
aborts it. -/
theorem lockDecrementLoop_error_of_exhausted :
    ∀ (ids : List Nat) (groups : List SubjectGroup) (gid : Nat),
      gid ∈ ids → (∀ g ∈ groups, g.id = gid → g.spots ≤ 0) →
      ∃ m, (Worker.lockDecrementLoop ids groups).2 = Except.error m
  | [], _, gid, hmem, _ => absurd hmem (List.not_mem_nil gid)
  | h :: rest, groups, gid, hmem, hdead => by
    simp only [Worker.lockDecrementLoop]
    cases hf : groups.find? (fun g => g.id == h) with
    | none => exact ⟨_, rfl⟩
    | some g =>
      by_cases hs : g.spots ≤ 0
      · simp only [if_pos hs]
        exact ⟨_, rfl⟩
      · simp only [if_neg hs]
        have hgid : gid ∈ rest := by
          rcases List.mem_cons.1 hmem with rfl | h'
          · exfalso
            have hgmem := List.mem_of_find?_eq_some hf
            have hpred := List.find?_some hf
            have hid : g.id = gid := by simpa using hpred
            exact hs (hdead g hgmem hid)
          · exact h'
        have hdead' : ∀ g' ∈ Worker.decrementSpots groups h, g'.id = gid → g'.spots ≤ 0 := by
          intro g' hg' hid
          unfold Worker.decrementSpots at hg'
          rcases List.mem_map.1 hg' with ⟨g0, hg0, heq⟩
          by_cases hb : (g0.id == h) = true
          · rw [if_pos hb] at heq
            subst heq
            have hle : g0.spots ≤ 0 := hdead g0 hg0 hid
            show g0.spots - 1 ≤ 0
            omega
          · rw [if_neg hb] at heq
            subst heq
            exact hdead g0 hg0 hid
        obtain ⟨m, hm⟩ :=
          lockDecrementLoop_error_of_exhausted rest (Worker.decrementSpots groups h) gid hgid hdead'
        exact ⟨m, hm⟩

/-- C1: inside the confirmation transaction every target section's seat
counter is re-read under the exclusive row lock, and the whole
transaction throws as soon as a counter is `≤ 0` (first conjunct). On
any failure of the transaction the rollback leaves every section counter
— indeed the whole `subject_group` table — exactly as it was before the
transaction began, and the enrollment record is set to REJECTED with the
failure's message stored (wrapped in the worker's `Error interno: `
prefix) as the rejection reason (second conjunct). -/
theorem confirmEnrollment_recheck_rollback_reject
    (db : Db) (eid : Nat) (ids : List Nat) (now : Nat) :
    ((∃ gid ∈ ids, ∀ g ∈ db.subjectGroups, g.id = gid → g.spots ≤ 0) →
      ∃ m, (Worker.confirmEnrollment db eid ids now).2 = Except.error m) ∧
    (∀ m, (Worker.confirmEnrollment db eid ids now).2 = Except.error m →
      (Worker.runConfirmStep db eid ids now).subjectGroups = db.subjectGroups ∧
      (Worker.runConfirmStep db eid ids now).scheduleRows = db.scheduleRows ∧
      ∀ e ∈ (Worker.runConfirmStep db eid ids now).enrollments, e.id = eid →
        e.status = EnrollmentStatus.REJECTED ∧
        e.rejectionReason = some ("Error interno: " ++ m)) := by
  constructor
  · rintro ⟨gid, hmem, hdead⟩
    obtain ⟨m, hm⟩ := lockDecrementLoop_error_of_exhausted ids db.subjectGroups gid hmem hdead
    refine ⟨m, ?_⟩
    unfold Worker.confirmEnrollment
    cases h : Worker.lockDecrementLoop ids db.subjectGroups with
    | mk tr r =>
      rw [h] at hm
      cases r with
      | error m' => simpa using hm
      | ok gs => simp at hm
  · intro m hcf
    have hrun : Worker.runConfirmStep db eid ids now =
        Worker.rejectEnrollment db eid ("Error interno: " ++ m) now := by
      unfold Worker.runConfirmStep
      rw [hcf]
    rw [hrun]
    refine ⟨rfl, rfl, ?_⟩
    intro e he hid
    unfold Worker.rejectEnrollment at he
    simp only at he
    rcases List.mem_map.1 he with ⟨e0, _, heq⟩
    by_cases hb : (e0.id == eid) = true
    · rw [if_pos hb] at heq
      subst heq
      exact ⟨rfl, rfl⟩
    · rw [if_neg hb] at heq
      subst heq
      exact absurd hid (by simpa using hb)

/-- Witness for C1 on a concrete database: section 1 exists with zero
seats, the transaction aborts, the section table is untouched and the
PENDING record 9 ends REJECTED with the wrapped failure message. -/
theorem confirmEnrollment_recheck_rollback_reject_witness :
    (∃ gid ∈ [1], ∀ g ∈ (Db.mk [⟨9, 1, ⟨1, 1, .ACTIVE, ⟨1, 2025⟩⟩, true, .PENDING, none, none, 0⟩]
        [⟨1, 0, "A", 1⟩] [] [] []).subjectGroups, g.id = gid → g.spots ≤ 0) ∧
    (∃ m, (Worker.confirmEnrollment (Db.mk [⟨9, 1, ⟨1, 1, .ACTIVE, ⟨1, 2025⟩⟩, true, .PENDING, none, none, 0⟩]
        [⟨1, 0, "A", 1⟩] [] [] []) 9 [1] 7).2 = Except.error m) ∧
    (Worker.runConfirmStep (Db.mk [⟨9, 1, ⟨1, 1, .ACTIVE, ⟨1, 2025⟩⟩, true, .PENDING, none, none, 0⟩]
        [⟨1, 0, "A", 1⟩] [] [] []) 9 [1] 7).subjectGroups =
      (Db.mk [⟨9, 1, ⟨1, 1, .ACTIVE, ⟨1, 2025⟩⟩, true, .PENDING, none, none, 0⟩]
        [⟨1, 0, "A", 1⟩] [] [] []).subjectGroups ∧
    ∀ e ∈ (Worker.runConfirmStep (Db.mk [⟨9, 1, ⟨1, 1, .ACTIVE, ⟨1, 2025⟩⟩, true, .PENDING, none, none, 0⟩]
        [⟨1, 0, "A", 1⟩] [] [] []) 9 [1] 7).enrollments, e.id = 9 →
      e.status = EnrollmentStatus.REJECTED ∧
      e.rejectionReason = some ("Error interno: " ++ "No hay cupos disponibles para grupo 1") := by
  have h := confirmEnrollment_recheck_rollback_reject
    (Db.mk [⟨9, 1, ⟨1, 1, .ACTIVE, ⟨1, 2025⟩⟩, true, .PENDING, none, none, 0⟩]
      [⟨1, 0, "A", 1⟩] [] [] []) 9 [1] 7
  have h2 := h.2 "No hay cupos disponibles para grupo 1" rfl
  exact ⟨by decide, h.1 (by decide), h2.1, h2.2.2⟩

/-!
## C7 — the capacity check
-/

/-- C7 counterexample: with no sections in the database and the request
`[5]`, the worker pipeline's capacity check fails — but its failure
message is the fixed string `Algunos grupos no existen`, which does not
report the missing id `5`. -/
theorem validateSpots_generic_missing_message :
    (Worker.validateSpots (Db.mk [] [] [] [] []) [5]).valid = false ∧
    (Worker.validateSpots (Db.mk [] [] [] [] []) [5]).reason =
      some "Algunos grupos no existen" ∧
    ¬((toString (5 : Nat)).data <:+: "Algunos grupos no existen".data) := by
  decide

/-- Filtering records on a predicate over their id has the same length
as filtering the projected id list. -/
theorem length_filter_by_id (l : List SubjectGroup) (p : Nat → Bool) :
    (l.filter (fun g => p g.id)).length = ((l.map (fun g => g.id)).filter p).length := by
  induction l with
  | nil => rfl
  | cons g gs ih =>
    by_cases h : p g.id = true <;> simp [List.filter_cons, h, ih]

/-- For duplicate-free lists, the number of `dbIds` entries lying in
`ids` equals the length of `ids` exactly when every id of `ids` occurs
in `dbIds`. -/
theorem length_filter_contains_eq_iff (dbIds ids : List Nat)
    (h1 : ids.Nodup) (h2 : dbIds.Nodup) :
    ((dbIds.filter (fun i => ids.contains i)).length = ids.length ↔
      ∀ i ∈ ids, dbIds.contains i = true) := by
  have e1 : (dbIds.filter (fun i => ids.contains i)).toFinset =
      dbIds.toFinset ∩ ids.toFinset := by
    ext a
    simp [List.mem_toFinset, List.mem_filter, List.contains, List.elem_iff]
  have e2 : (ids.filter (fun i => dbIds.contains i)).toFinset =
      ids.toFinset ∩ dbIds.toFinset := by
    ext a
    simp [List.mem_toFinset, List.mem_filter, List.contains, List.elem_iff]
  have c1 := List.toFinset_card_of_nodup (h2.filter (fun i => ids.contains i))
  have c2 := List.toFinset_card_of_nodup (h1.filter (fun i => dbIds.contains i))
  have hA : (dbIds.filter (fun i => ids.contains i)).length =
      (ids.filter (fun i => dbIds.contains i)).length := by
    rw [← c1, ← c2, e1, e2, Finset.inter_comm]
  rw [hA, List.filter_length_eq_length]

/-- The `missingIds` list computed by the validation service from the
fetched rows' ids coincides with the ids missing from the whole
`subject_group` table. -/
theorem svc_missingIds_eq (db : Db) (ids : List Nat) :
    ids.filter (fun i =>
        !((db.subjectGroups.filter (fun g => ids.contains g.id)).map (fun g => g.id)).contains i) =
      ids.filter (fun i => !((db.subjectGroups.map (fun g => g.id)).contains i)) := by
  apply List.filter_congr
  intro i hi
  have hiff : (((db.subjectGroups.filter (fun g => ids.contains g.id)).map
        (fun g => g.id)).contains i = true) ↔
      ((db.subjectGroups.map (fun g => g.id)).contains i = true) := by
    simp only [List.contains, List.elem_iff, List.mem_map, List.mem_filter]
    constructor
    · rintro ⟨g, ⟨hg, _⟩, rfl⟩
      exact ⟨g, hg, rfl⟩
    · rintro ⟨g, hg, rfl⟩
      refine ⟨g, ⟨hg, ?_⟩, rfl⟩
      simpa [List.contains, List.elem_iff] using hi
  rw [Bool.eq_iff_iff.2 hiff]

/-- C7 as amended: when some requested id has no matching section, the
worker pipeline's capacity check fails with the fixed message `Algunos
grupos no existen` (which does not name the ids), while the validation
service variant fails reporting the missing ids; when every id resolves
but some fetched section has `spots ≤ 0`, both variants fail reporting
the affected sections' labels; otherwise both succeed. (The request list
and the section table are assumed duplicate-free, as the data model
requires.) -/
theorem validateSpots_characterization (db : Db) (ids : List Nat)
    (h1 : ids.Nodup) (h2 : (db.subjectGroups.map (fun g => g.id)).Nodup) :
    (ids.filter (fun i => !((db.subjectGroups.map (fun g => g.id)).contains i)) ≠ [] →
      Worker.validateSpots db ids = ⟨false, some "Algunos grupos no existen"⟩ ∧
      ValidationSvc.validateSpots db ids = ⟨false, some ("Grupos no encontrados: " ++
        String.intercalate ", "
          ((ids.filter (fun i => !((db.subjectGroups.map (fun g => g.id)).contains i))).map
            toString))⟩) ∧
    (ids.filter (fun i => !((db.subjectGroups.map (fun g => g.id)).contains i)) = [] →
      (db.subjectGroups.filter (fun g => ids.contains g.id)).filter (fun g => g.spots ≤ 0) ≠ [] →
      Worker.validateSpots db ids = ⟨false, some ("Sin cupos disponibles en: " ++
        String.intercalate ", "
          (((db.subjectGroups.filter (fun g => ids.contains g.id)).filter
              (fun g => g.spots ≤ 0)).map
            (fun g => "Grupo " ++ g.group ++ " (ID: " ++ toString g.id ++ ")")))⟩ ∧
      ValidationSvc.validateSpots db ids = ⟨false, some ("Sin cupos disponibles en: " ++
        String.intercalate ", "
          (((db.subjectGroups.filter (fun g => ids.contains g.id)).filter
              (fun g => g.spots ≤ 0)).map
            (fun g => "Grupo " ++ g.group ++ " (ID: " ++ toString g.id ++ ")")))⟩) ∧
    (ids.filter (fun i => !((db.subjectGroups.map (fun g => g.id)).contains i)) = [] →
      (db.subjectGroups.filter (fun g => ids.contains g.id)).filter (fun g => g.spots ≤ 0) = [] →
      Worker.validateSpots db ids = ⟨true, none⟩ ∧
      ValidationSvc.validateSpots db ids = ⟨true, none⟩) := by
  have hmiss_iff :
      ((db.subjectGroups.filter (fun g => ids.contains g.id)).length = ids.length ↔
        ids.filter (fun i => !((db.subjectGroups.map (fun g => g.id)).contains i)) = []) := by
    rw [length_filter_by_id db.subjectGroups (fun i => ids.contains i),
      length_filter_contains_eq_iff _ _ h1 h2, List.filter_eq_nil_iff]
    constructor
    · intro hall a ha
      rw [hall a ha]
      decide
    · intro hall a ha
      have h := hall a ha
      cases hc : (db.subjectGroups.map (fun g => g.id)).contains a with
      | false => rw [hc] at h; exact absurd rfl h
      | true => rfl
  refine ⟨?_, ?_, ?_⟩
  · intro hne
    have hcond : (db.subjectGroups.filter (fun g => ids.contains g.id)).length ≠ ids.length :=
      fun h => hne (hmiss_iff.1 h)
    constructor
    · unfold Worker.validateSpots
      simp only [if_pos hcond]
    · unfold ValidationSvc.validateSpots
      simp only [if_pos hcond]
      rw [svc_missingIds_eq db ids]
  · intro hmiss hne
    have hcond : ¬((db.subjectGroups.filter (fun g => ids.contains g.id)).length ≠ ids.length) :=
      fun h => h (hmiss_iff.2 hmiss)
    have hpos : ((db.subjectGroups.filter (fun g => ids.contains g.id)).filter
        (fun g => g.spots ≤ 0)).length > 0 := List.length_pos.2 hne
    constructor
    · unfold Worker.validateSpots
      simp only [if_neg hcond, if_pos hpos]
    · unfold ValidationSvc.validateSpots
      simp only [if_neg hcond, if_pos hpos]
  · intro hmiss hnospots
    have hcond : ¬((db.subjectGroups.filter (fun g => ids.contains g.id)).length ≠ ids.length) :=
      fun h => h (hmiss_iff.2 hmiss)
    have hnpos : ¬(((db.subjectGroups.filter (fun g => ids.contains g.id)).filter
        (fun g => g.spots ≤ 0)).length > 0) := by
      rw [hnospots]
      simp
    constructor
    · unfold Worker.validateSpots
      simp only [if_neg hcond, if_neg hnpos]
    · unfold ValidationSvc.validateSpots
      simp only [if_neg hcond, if_neg hnpos]

/-- Witness for C7 (amended) on concrete databases: a missing id makes
the worker fail generically and the service fail naming id 2; an
exhausted section produces the label-reporting message; a healthy
request succeeds in both variants. -/
theorem validateSpots_characterization_witness :
    Worker.validateSpots (Db.mk [] [⟨1, 0, "A", 1⟩] [] [] []) [1, 2] =
      ⟨false, some "Algunos grupos no existen"⟩ ∧
    ValidationSvc.validateSpots (Db.mk [] [⟨1, 0, "A", 1⟩] [] [] []) [1, 2] =
      ⟨false, some "Grupos no encontrados: 2"⟩ ∧
    Worker.validateSpots (Db.mk [] [⟨1, 0, "A", 1⟩] [] [] []) [1] =
      ⟨false, some "Sin cupos disponibles en: Grupo A (ID: 1)"⟩ ∧
    Worker.validateSpots (Db.mk [] [⟨1, 3, "A", 1⟩] [] [] []) [1] = ⟨true, none⟩ := by
  have ha := (validateSpots_characterization (Db.mk [] [⟨1, 0, "A", 1⟩] [] [] []) [1, 2]
    (by decide) (by decide)).1 (by decide)
  have hb := ((validateSpots_characterization (Db.mk [] [⟨1, 0, "A", 1⟩] [] [] []) [1]
    (by decide) (by decide)).2.1 (by decide) (by decide)).1
  have hc := ((validateSpots_characterization (Db.mk [] [⟨1, 3, "A", 1⟩] [] [] []) [1]
    (by decide) (by decide)).2.2 (by decide) (by decide)).1
  exact ⟨ha.1, ha.2.trans (by decide), hb.trans (by decide), hc⟩

/-!
## C8 — intake failures: no active period, duplicate enrollment
-/

/-- A prefix of `x` is still a prefix of `x ++ y`, at the level of the
character data of strings. -/
theorem prefix_data_append (x y n : String) (hp : n.data <+: x.data) :
    n.data <+: (x ++ y).data := by
  rcases hp with ⟨t, ht⟩
  exact ⟨t ++ y.data, by rw [String.data_append, ← ht, List.append_assoc]⟩

/-- A string starts with `n` ⇒ JavaScript `includes(n)` is true. -/
theorem strIncludes_of_data_prefix (h n : String) (hp : n.data <+: h.data) :
    strIncludes h n = true := by
  rcases hp with ⟨t, ht⟩
  unfold strIncludes
  apply decide_eq_true
  exact ⟨[], t, by simpa using ht⟩

/-- The duplicate failure message always contains the substring the
intake catch block classifies as a 409 Conflict. -/
theorem dupMessage_includes_conflict_marker (e : Enrollment) :
    strIncludes (ValidationSvc.dupMessage e) "Ya existe una inscripción" = true := by
  apply strIncludes_of_data_prefix
  unfold ValidationSvc.dupMessage
  apply prefix_data_append
  apply prefix_data_append
  apply prefix_data_append
  apply prefix_data_append
  apply prefix_data_append
  apply prefix_data_append
  apply prefix_data_append
  decide

/-- The duplicate failure message contains the quoted display label
`'number-year'` of the colliding record's period. -/
theorem dupMessage_includes_period_label (e : Enrollment) :
    (sglQuote ++ toString e.period.number ++ "-" ++ toString e.period.term.year ++ sglQuote).data <:+:
      (ValidationSvc.dupMessage e).data := by
  refine ⟨("Ya existe una inscripción " ++
    (if e.status == EnrollmentStatus.PENDING then "pendiente" else "confirmada") ++
    " para el período: ").data, [], ?_⟩
  unfold ValidationSvc.dupMessage
  simp [String.data_append, List.append_assoc]

/-- C8: `createEnrollmentRequest` fails with a 404 NotFound when no
ACTIVE period exists; and when a PENDING or CONFIRMED record already
exists for (student, active period) it fails with a 409 Conflict whose
message quotes the colliding period's display label `number-year` — and
in both failure cases the database is returned unchanged: no PENDING
record and no detail rows are created. -/
theorem createEnrollmentRequest_period_and_duplicate_errors
    (db : Db) (dto : CreateEnrollmentRequestDto) (now : Nat) :
    (db.periods.find? (fun p => p.status == PeriodStatus.ACTIVE) = none →
      Intake.createEnrollmentRequest db dto now =
        (db, Except.error ⟨404, "No active period found"⟩)) ∧
    (∀ p e, db.periods.find? (fun q => q.status == PeriodStatus.ACTIVE) = some p →
      db.enrollments.find? (ValidationSvc.dupPred dto.studentId p.id) = some e →
      Intake.createEnrollmentRequest db dto now =
        (db, Except.error ⟨409, ValidationSvc.dupMessage e⟩) ∧
      (sglQuote ++ toString e.period.number ++ "-" ++ toString e.period.term.year ++ sglQuote).data <:+:
        (ValidationSvc.dupMessage e).data) := by
  constructor
  · intro h
    unfold Intake.createEnrollmentRequest
    rw [h]
  · intro p e hp he
    have hval : ValidationSvc.validateNoDuplicateConfirmed db dto.studentId p.id =
        ⟨false, some (ValidationSvc.dupMessage e)⟩ := by
      unfold ValidationSvc.validateNoDuplicateConfirmed
      rw [he]
    have hclass : Intake.classifyIntakeError (ValidationSvc.dupMessage e) =
        ⟨409, ValidationSvc.dupMessage e⟩ := by
      unfold Intake.classifyIntakeError
      rw [dupMessage_includes_conflict_marker e]
      simp
    refine ⟨?_, dupMessage_includes_period_label e⟩
    unfold Intake.createEnrollmentRequest
    rw [hp]
    simp only [hval, hclass]
    rfl

/-- Witness for C8 on concrete databases: with no ACTIVE period the call
404s; with an ACTIVE period and an existing CONFIRMED record for the
same student it 409s with the label-carrying message, and the returned
database is the input database. -/
theorem createEnrollmentRequest_errors_witness :
    Intake.createEnrollmentRequest
        (Db.mk [] [] [] [⟨1, 1, .INACTIVE, ⟨1, 2025⟩⟩] []) ⟨1, [2], true⟩ 0 =
      ((Db.mk [] [] [] [⟨1, 1, .INACTIVE, ⟨1, 2025⟩⟩] []),
        Except.error ⟨404, "No active period found"⟩) ∧
    Intake.createEnrollmentRequest
        (Db.mk [⟨5, 1, ⟨1, 1, .ACTIVE, ⟨1, 2025⟩⟩, true, .CONFIRMED, none, some 2, 0⟩]
          [] [] [⟨1, 1, .ACTIVE, ⟨1, 2025⟩⟩] []) ⟨1, [2], true⟩ 0 =
      ((Db.mk [⟨5, 1, ⟨1, 1, .ACTIVE, ⟨1, 2025⟩⟩, true, .CONFIRMED, none, some 2, 0⟩]
          [] [] [⟨1, 1, .ACTIVE, ⟨1, 2025⟩⟩] []),
        Except.error ⟨409, ValidationSvc.dupMessage
          ⟨5, 1, ⟨1, 1, .ACTIVE, ⟨1, 2025⟩⟩, true, .CONFIRMED, none, some 2, 0⟩⟩) ∧
    (sglQuote ++ toString (1 : Nat) ++ "-" ++ toString (2025 : Nat) ++ sglQuote).data <:+:
      (ValidationSvc.dupMessage
        ⟨5, 1, ⟨1, 1, .ACTIVE, ⟨1, 2025⟩⟩, true, .CONFIRMED, none, some 2, 0⟩).data := by
  have h1 := (createEnrollmentRequest_period_and_duplicate_errors
    (Db.mk [] [] [] [⟨1, 1, .INACTIVE, ⟨1, 2025⟩⟩] []) ⟨1, [2], true⟩ 0).1 rfl
  have h2 := (createEnrollmentRequest_period_and_duplicate_errors
    (Db.mk [⟨5, 1, ⟨1, 1, .ACTIVE, ⟨1, 2025⟩⟩, true, .CONFIRMED, none, some 2, 0⟩]
      [] [] [⟨1, 1, .ACTIVE, ⟨1, 2025⟩⟩] []) ⟨1, [2], true⟩ 0).2
    ⟨1, 1, .ACTIVE, ⟨1, 2025⟩⟩
    ⟨5, 1, ⟨1, 1, .ACTIVE, ⟨1, 2025⟩⟩, true, .CONFIRMED, none, some 2, 0⟩
    rfl rfl
  exact ⟨h1, h2.1, h2.2⟩

/-!
## C9 — strict FIFO dispatch in the worker pool
-/

/-- The dispatcher loop never touches the arrival history. -/
theorem processQueueGo_arrived :
    ∀ (q : List Nat) (ws : List Pool.WorkerSlot) (d a : List Nat),
      (Pool.processQueueGo ws d a q).arrived = a
  | [], ws, d, a => rfl
  | t :: rest, ws, d, a => by
    unfold Pool.processQueueGo
    by_cases hany : ws.any (fun w => !w.busy) = true
    · rw [if_pos hany]
      exact processQueueGo_arrived rest _ _ a
    · rw [if_neg hany]

/-- The dispatcher loop preserves the accounting equation
`arrived = dispatched ++ taskQueue`: every assignment moves the head of
the queue to the end of the dispatch history. -/
theorem processQueueGo_inv :
    ∀ (q : List Nat) (ws : List Pool.WorkerSlot) (d a : List Nat),
      a = d ++ q →
      (Pool.processQueueGo ws d a q).arrived =
        (Pool.processQueueGo ws d a q).dispatched ++
          (Pool.processQueueGo ws d a q).taskQueue
  | [], ws, d, a, h => by
    unfold Pool.processQueueGo
    simpa using h
  | t :: rest, ws, d, a, h => by
    unfold Pool.processQueueGo
    by_cases hany : ws.any (fun w => !w.busy) = true
    · rw [if_pos hany]
      exact processQueueGo_inv rest _ _ a (by rw [h]; simp)
    · rw [if_neg hany]
      exact h

/-- The dispatch history only grows across the dispatcher loop. -/
theorem processQueueGo_dispatched_mono :
    ∀ (q : List Nat) (ws : List Pool.WorkerSlot) (d a : List Nat),
      d <+: (Pool.processQueueGo ws d a q).dispatched
  | [], ws, d, a => ⟨[], by simp [Pool.processQueueGo]⟩
  | t :: rest, ws, d, a => by
    unfold Pool.processQueueGo
    by_cases hany : ws.any (fun w => !w.busy) = true
    · rw [if_pos hany]
      rcases processQueueGo_dispatched_mono rest (Pool.markFirstAvailable t ws) (d ++ [t]) a with
        ⟨u, hu⟩
      refine ⟨[t] ++ u, ?_⟩
      rw [← hu]
      simp
    · rw [if_neg hany]

/-- `processQueue` phrased through the loop lemma: it preserves the
accounting equation. -/
theorem processQueue_inv (s : Pool.PoolState) :
    s.arrived = s.dispatched ++ s.taskQueue →
    (Pool.processQueue s).arrived =
      (Pool.processQueue s).dispatched ++ (Pool.processQueue s).taskQueue := by
  intro h
  exact processQueueGo_inv s.taskQueue s.workers s.dispatched s.arrived h

/-- Each dispatcher event (task arrival, worker completion) preserves
the accounting equation. -/
theorem poolStep_inv (s : Pool.PoolState) (ev : Pool.PoolEvent)
    (h : s.arrived = s.dispatched ++ s.taskQueue) :
    (Pool.poolStep s ev).arrived =
      (Pool.poolStep s ev).dispatched ++ (Pool.poolStep s ev).taskQueue := by
  cases ev with
  | enqueue t =>
    apply processQueue_inv
    simp [Pool.enqueueTask, h]
  | complete wid =>
    apply processQueue_inv
    simpa using h

/-- C9: the pool dispatches tasks in strict FIFO arrival order. The
accounting equation `arrived = dispatched ++ taskQueue` is an invariant
of every run, so from the initial pool the dispatch history is always a
prefix of the arrival history — for any two tasks the earlier-enqueued
one is dispatched no later than the later one. Moreover, on each
activation the dispatcher hands the head of the queue to the first
non-busy worker in slot order (the first idle slot receives the task),
and whenever the queue is non-empty and some worker is idle the head of
the queue is the very next task dispatched. -/
theorem pool_fifo_strict_arrival_order :
    (∀ (s : Pool.PoolState) (evs : List Pool.PoolEvent),
      s.arrived = s.dispatched ++ s.taskQueue →
      (Pool.poolRun s evs).arrived =
        (Pool.poolRun s evs).dispatched ++ (Pool.poolRun s evs).taskQueue) ∧
    (∀ (n : Nat) (evs : List Pool.PoolEvent),
      (Pool.poolRun (Pool.initPool n) evs).dispatched <+:
        (Pool.poolRun (Pool.initPool n) evs).arrived) ∧
    (∀ (ws : List Pool.WorkerSlot) (t : Nat) (i : Nat) (hi : i < ws.length),
      (∀ w ∈ ws.take i, w.busy = true) →
      (ws.get ⟨i, hi⟩).busy = false →
      Pool.markFirstAvailable t ws =
        ws.set i { ws.get ⟨i, hi⟩ with busy := true, currentTask := some t }) ∧
    (∀ (s : Pool.PoolState) (t : Nat) (rest : List Nat),
      s.taskQueue = t :: rest → s.workers.any (fun w => !w.busy) = true →
      s.dispatched ++ [t] <+: (Pool.processQueue s).dispatched) := by
  have hrun : ∀ (evs : List Pool.PoolEvent) (s : Pool.PoolState),
      s.arrived = s.dispatched ++ s.taskQueue →
      (Pool.poolRun s evs).arrived =
        (Pool.poolRun s evs).dispatched ++ (Pool.poolRun s evs).taskQueue := by
    intro evs
    induction evs with
    | nil => intro s h; exact h
    | cons ev rest ih =>
      intro s h
      exact ih (Pool.poolStep s ev) (poolStep_inv s ev h)
  refine ⟨fun s evs h => hrun evs s h, ?_, ?_, ?_⟩
  · intro n evs
    have h := hrun evs (Pool.initPool n) rfl
    exact ⟨(Pool.poolRun (Pool.initPool n) evs).taskQueue, h.symm⟩
  · intro ws
    induction ws with
    | nil => intro t i hi; exact absurd hi (by simp)
    | cons w rest ih =>
      intro t i hi hbusy hidle
      cases i with
      | zero =>
        have hw : w.busy = false := hidle
        unfold Pool.markFirstAvailable
        rw [if_neg (by simp [hw])]
        rfl
      | succ i' =>
        have hw : w.busy = true := hbusy w (by simp)
        unfold Pool.markFirstAvailable
        rw [if_pos hw]
        have hi' : i' < rest.length := Nat.lt_of_succ_lt_succ hi
        have := ih t i' hi'
          (fun x hx => hbusy x (by simpa using Or.inr hx))
          hidle
        rw [this]
        rfl
  · intro s t rest hq hany
    unfold Pool.processQueue
    rw [hq]
    unfold Pool.processQueueGo
    rw [if_pos hany]
    exact processQueueGo_dispatched_mono rest (Pool.markFirstAvailable t s.workers)
      (s.dispatched ++ [t]) s.arrived

/-- Witness for C9: a pool of one worker receiving tasks 10 and 20 and
one completion keeps the accounting equation; on a two-slot pool with
the first slot busy, the second slot receives the task; with an idle
worker and task 42 at the head, 42 is dispatched next. -/
theorem pool_fifo_strict_arrival_order_witness :
    ((Pool.poolRun (Pool.initPool 1)
        [.enqueue 10, .enqueue 20, .complete 1]).arrived =
      (Pool.poolRun (Pool.initPool 1)
        [.enqueue 10, .enqueue 20, .complete 1]).dispatched ++
      (Pool.poolRun (Pool.initPool 1)
        [.enqueue 10, .enqueue 20, .complete 1]).taskQueue) ∧
    (Pool.markFirstAvailable 5 [⟨1, true, some 9⟩, ⟨2, false, none⟩] =
      [⟨1, true, some 9⟩, ⟨2, true, some 5⟩]) ∧
    ([] ++ [42] <+:
      (Pool.processQueue ⟨[⟨1, false, none⟩], [42], [], [42]⟩).dispatched) := by
  have h := pool_fifo_strict_arrival_order
  refine ⟨h.1 (Pool.initPool 1) [.enqueue 10, .enqueue 20, .complete 1] rfl, ?_, ?_⟩
  · have h3 := h.2.2.1 [⟨1, true, some 9⟩, ⟨2, false, none⟩] 5 1 (by decide)
      (by decide) rfl
    rw [h3]
    rfl
  · exact h.2.2.2 ⟨[⟨1, false, none⟩], [42], [], [42]⟩ 42 [] rfl rfl

/-!
## C10 — `getStudentEnrollments` with `periodId = 0`
-/

/-- C10: for every student id and database, calling
`getStudentEnrollments` with `periodId` equal to `0` returns exactly what
it returns with no period filter supplied at all — the period filter is
applied only when the given `periodId` is truthy, and `0` is falsy. -/
theorem getStudentEnrollments_zero_periodId_no_filter
    (db : Db) (studentId : Nat) :
    Intake.getStudentEnrollments db studentId (some 0) =
      Intake.getStudentEnrollments db studentId none := rfl

/-!
## C2 — missing or non-PENDING enrollment is a no-op
-/

/-- C2: if the enrollment referenced by the event does not exist, or
exists with a status other than PENDING, the worker's
`processEnrollmentRequest` leaves the whole database unchanged: no
status is written and no seat counter is decremented; in particular
re-processing a CONFIRMED or REJECTED record is a no-op. -/
theorem processEnrollmentRequest_noop_when_not_pending
    (db : Db) (event : EnrollmentRequestEvent) (now : Nat) :
    (db.enrollments.find? (fun e => e.id == event.enrollmentId) = none →
      Worker.processEnrollmentRequest db event now = db) ∧
    (∀ e, db.enrollments.find? (fun e => e.id == event.enrollmentId) = some e →
      e.status ≠ EnrollmentStatus.PENDING →
      Worker.processEnrollmentRequest db event now = db) := by
  constructor
  · intro h
    unfold Worker.processEnrollmentRequest
    rw [h]
  · intro e h hst
    unfold Worker.processEnrollmentRequest
    rw [h]
    simp [hst]

/-- Witness for C2 on a concrete database: a CONFIRMED record is left
untouched, and an event referencing an absent record is also a no-op. -/
theorem processEnrollmentRequest_noop_witness :
    (Db.mk [⟨5, 1, ⟨1, 1, .ACTIVE, ⟨1, 2025⟩⟩, true, .CONFIRMED, none, some 3, 0⟩]
        [] [] [] []).enrollments.find?
      (fun e => e.id == (5 : Nat)) =
      some ⟨5, 1, ⟨1, 1, .ACTIVE, ⟨1, 2025⟩⟩, true, .CONFIRMED, none, some 3, 0⟩ ∧
    Worker.processEnrollmentRequest
      (Db.mk [⟨5, 1, ⟨1, 1, .ACTIVE, ⟨1, 2025⟩⟩, true, .CONFIRMED, none, some 3, 0⟩] [] [] [] [])
      ⟨5, 1, 1, [2], true⟩ 9 =
      Db.mk [⟨5, 1, ⟨1, 1, .ACTIVE, ⟨1, 2025⟩⟩, true, .CONFIRMED, none, some 3, 0⟩] [] [] [] [] := by
  refine ⟨by decide, ?_⟩
  exact (processEnrollmentRequest_noop_when_not_pending
      (Db.mk [⟨5, 1, ⟨1, 1, .ACTIVE, ⟨1, 2025⟩⟩, true, .CONFIRMED, none, some 3, 0⟩] [] [] [] [])
      ⟨5, 1, 1, [2], true⟩ 9).2
    ⟨5, 1, ⟨1, 1, .ACTIVE, ⟨1, 2025⟩⟩, true, .CONFIRMED, none, some 3, 0⟩
    (by decide) (by decide)
